import Mathlib

/-!
# Verification of the Advanced-Bankist UI behavior layer

A shallow embedding of the slider (carousel), keyboard gate, visibility
callbacks, modal, and tab-switching code of this repository, together with
theorems about the properties stated in its specification.

The main source is the full-page script (`src/unnamed/part_001`); the tab
switching is also embedded from its two variants (`src/script.js` and
`src/unnamed/part_002`).  DOM state touched by the code (slide transforms,
dot elements and their classes, attached `keydown` listeners, modal classes
and the body overflow style) is carried explicitly in small state records;
a JavaScript statement that can throw a `TypeError` (a property read on
`null`/`undefined`) is embedded as an `Option`/`Except` failure.
-/

namespace Bankist

/-! ## Slider data model (src/unnamed/part_001, lines 245-381)

A dot element created by `createDots`: its `data-slide` attribute and
whether it carries the class `dots__dot--active`. -/

structure Dot where
  slide : Nat
  active : Bool
deriving DecidableEq, Repr

/-- The slider's mutable page state: `allSlides.length`, the top-level
`currentSlide` variable (a JS number, embedded as `Int`), the `translateX`
percentage currently applied to each slide, and the dot elements inside
`.dots` in document order. -/
structure SliderState where
  numSlides : Nat
  currentSlide : Int
  transforms : List Int
  dots : List Dot
deriving DecidableEq, Repr

/-- Lines 264-268: `slideMove` sets, for every slide at position `index`,
`translateX(100 * (index - currentSlide) %)`. -/
def slideMove (n : Nat) (cur : Int) : List Int :=
  (List.range n).map (fun i => 100 * ((i : Int) - cur))

/-- Dots with the given `data-slide` tags, none of them active
(the state `createDots` produces). -/
def freshDots (tags : List Nat) : List Dot :=
  tags.map (fun i => { slide := i, active := false })

/-- Dots with the given tags where exactly the tags equal to `k` are
active (the state `activateDot k` produces on distinct tags). -/
def mkDots (tags : List Nat) (k : Int) : List Dot :=
  tags.map (fun i => { slide := i, active := decide ((i : Int) = k) })

/-- Lines 350-356: `createDots` inserts one `button.dots__dot` with
`data-slide="${index}"` per slide, in order. -/
def createDots (n : Nat) : List Dot :=
  freshDots (List.range n)

/-- Line 366: `allDots.forEach(dot => dot.classList.remove('dots__dot--active'))`. -/
def clearDots (ds : List Dot) : List Dot :=
  ds.map (fun d => { d with active := false })

/-- Lines 367-370: `document.querySelector('.dots__dot[data-slide="${curslide}"]')`
followed by `classList.add` on the result.  `querySelector` returns the first
matching element; if there is none it returns `null` and the `classList.add`
throws, which is embedded as `none`. -/
def activateFirst (cur : Int) : List Dot → Option (List Dot)
  | [] => none
  | d :: ds =>
      if (d.slide : Int) = cur then some ({ d with active := true } :: ds)
      else (activateFirst cur ds).map (fun ds' => d :: ds')

/-- Lines 365-371: `activateDot` clears the active class from every dot and
then adds it to the dot whose `data-slide` equals `curslide`. -/
def activateDot (cur : Int) (s : SliderState) : Option SliderState :=
  (activateFirst cur (clearDots s.dots)).map (fun ds => { s with dots := ds })

/-- Line 275: `currentSlide === allSlides.length - 1 ? 0 : currentSlide + 1`. -/
def nextIndex (s : SliderState) : Int :=
  if s.currentSlide = (s.numSlides : Int) - 1 then 0 else s.currentSlide + 1

/-- Lines 274-278: `nextSlide` assigns the wrapped successor index, calls
`slideMove`, then `activateDot`. -/
def nextSlide (s : SliderState) : Option SliderState :=
  activateDot (nextIndex s)
    { s with currentSlide := nextIndex s
             transforms := slideMove s.numSlides (nextIndex s) }

/-- Line 282: `currentSlide === 0 ? allSlides.length - 1 : currentSlide - 1`. -/
def prevIndex (s : SliderState) : Int :=
  if s.currentSlide = 0 then (s.numSlides : Int) - 1 else s.currentSlide - 1

/-- Lines 281-285: `previousSlide` assigns the wrapped predecessor index,
calls `slideMove`, then `activateDot`. -/
def previousSlide (s : SliderState) : Option SliderState :=
  activateDot (prevIndex s)
    { s with currentSlide := prevIndex s
             transforms := slideMove s.numSlides (prevIndex s) }

/-- The `event.target` of a click on the `.dots` container: whether the
target's class list contains `dots__dot`, and the `Number(...)` value of its
`data-slide` attribute (dots are created with natural-number tags). -/
structure ClickTarget where
  isDot : Bool
  dataSlide : Nat
deriving DecidableEq, Repr

/-- Lines 374-380: the `.dots` click handler.  If the target carries the
`dots__dot` class it assigns `currentSlide = Number(target.dataset.slide)`,
calls `slideMove`, then `activateDot`; otherwise it does nothing. -/
def dotClickHandler (t : ClickTarget) (s : SliderState) : Option SliderState :=
  if t.isDot then
    activateDot (t.dataSlide : Int)
      { s with currentSlide := (t.dataSlide : Int)
               transforms := slideMove s.numSlides (t.dataSlide : Int) }
  else some s

/-- The three slider operations reachable from the UI: the right button (or
`ArrowRight`), the left button (or `ArrowLeft`), and a click inside the dot
container. -/
inductive SliderEvent where
  | next : SliderEvent
  | prev : SliderEvent
  | dotClick : ClickTarget → SliderEvent
deriving DecidableEq, Repr

/-- A click delivered to the dot container of a page with `n` slides: if the
target is a dot, it is one of the dots generated by `createDots`, so its tag
is below `n`. -/
def SliderEvent.valid (e : SliderEvent) (n : Nat) : Bool :=
  match e with
  | .dotClick t => !t.isDot || decide (t.dataSlide < n)
  | _ => true

def step (e : SliderEvent) (s : SliderState) : Option SliderState :=
  match e with
  | .next => nextSlide s
  | .prev => previousSlide s
  | .dotClick t => dotClickHandler t s

def runEvents (es : List SliderEvent) (o : Option SliderState) : Option SliderState :=
  es.foldl (fun acc e => acc.bind (step e)) o

/-- Lines 246, 271, 356, 381: page load with `n` slides sets
`currentSlide = 0`, calls `slideMove(0)`, `createDots()`, `activateDot(0)`. -/
def initSlider (n : Nat) : Option SliderState :=
  activateDot 0
    { numSlides := n, currentSlide := 0
      transforms := slideMove n 0, dots := createDots n }

/-- The slider's state invariant: the slide count is `n`, `currentSlide` is
in `[0, n-1]`, exactly the dot tagged `currentSlide` is active, and the
transforms are those rendered by `slideMove` for `currentSlide`. -/
def sliderInv (n : Nat) (s : SliderState) : Prop :=
  s.numSlides = n ∧ 0 ≤ s.currentSlide ∧ s.currentSlide < (n : Int) ∧
  s.dots = mkDots (List.range n) s.currentSlide ∧
  s.transforms = slideMove n s.currentSlide

instance decSliderInv (n : Nat) (s : SliderState) : Decidable (sliderInv n s) := by
  unfold sliderInv; infer_instance

/-! ## Lemmas about dot activation -/

lemma mkDots_of_not_mem (tags : List Nat) (k : Int)
    (h : ∀ i ∈ tags, (i : Int) ≠ k) : mkDots tags k = freshDots tags := by
  induction tags with
  | nil => rfl
  | cons t ts ih =>
      have h1 : (t : Int) ≠ k := h t (List.mem_cons_self t ts)
      have h2 : ∀ i ∈ ts, (i : Int) ≠ k := fun i hi => h i (List.mem_cons_of_mem t hi)
      simp only [mkDots, freshDots, List.map_cons] at ih ⊢
      rw [ih h2]
      simp [h1]

lemma clear_mkDots (tags : List Nat) (k : Int) :
    clearDots (mkDots tags k) = freshDots tags := by
  simp [clearDots, mkDots, freshDots, List.map_map, Function.comp]

lemma clear_freshDots (tags : List Nat) :
    clearDots (freshDots tags) = freshDots tags := by
  simp [clearDots, freshDots, List.map_map, Function.comp]

lemma activateFirst_fresh (tags : List Nat) (k : Nat)
    (hnd : tags.Nodup) (hk : k ∈ tags) :
    activateFirst (k : Int) (freshDots tags) = some (mkDots tags (k : Int)) := by
  induction tags with
  | nil => cases hk
  | cons t ts ih =>
      obtain ⟨htn, hts⟩ := List.nodup_cons.mp hnd
      by_cases hteq : t = k
      · subst hteq
        have hnm : ∀ i ∈ ts, (i : Int) ≠ (t : Int) := by
          intro i hi hcast
          exact htn (by rwa [Int.natCast_inj.mp hcast] at hi)
        simp only [freshDots, List.map_cons, activateFirst]
        rw [if_pos trivial]
        rw [show mkDots (t :: ts) (t : Int) =
              { slide := t, active := decide ((t : Int) = (t : Int)) } ::
                mkDots ts (t : Int) from rfl]
        rw [mkDots_of_not_mem ts (t : Int) hnm]
        simp [freshDots]
      · have hk' : k ∈ ts := by
          rcases List.mem_cons.mp hk with h | h
          · exact absurd h.symm hteq
          · exact h
        have hne : (t : Int) ≠ (k : Int) := by
          simpa [Int.natCast_inj] using hteq
        simp only [freshDots, List.map_cons, activateFirst]
        rw [if_neg hne]
        rw [show (freshDots ts = ts.map fun i => { slide := i, active := false }) from rfl] at ih
        rw [ih hts hk']
        simp only [Option.map_some', mkDots, List.map_cons]
        have : decide ((t : Int) = (k : Int)) = false := decide_eq_false hne
        simp [this, hteq]

lemma activateDot_some {n k : Nat} (hk : k < n) (s : SliderState)
    (hd : clearDots s.dots = freshDots (List.range n)) :
    activateDot (k : Int) s =
      some { s with dots := mkDots (List.range n) (k : Int) } := by
  unfold activateDot
  rw [hd, activateFirst_fresh (List.range n) k (List.nodup_range n) (List.mem_range.mpr hk)]
  rfl

lemma filter_freshDots (tags : List Nat) :
    (freshDots tags).filter (fun d => d.active) = [] := by
  induction tags with
  | nil => rfl
  | cons t ts ih => simp [freshDots, List.filter] at ih ⊢

lemma filter_mkDots (tags : List Nat) (k : Nat) (hnd : tags.Nodup) (hk : k ∈ tags) :
    (mkDots tags (k : Int)).filter (fun d => d.active) =
      [{ slide := k, active := true }] := by
  induction tags with
  | nil => cases hk
  | cons t ts ih =>
      obtain ⟨htn, hts⟩ := List.nodup_cons.mp hnd
      by_cases hteq : t = k
      · subst hteq
        have hnm : ∀ i ∈ ts, (i : Int) ≠ (t : Int) := by
          intro i hi hcast
          exact htn (by rwa [Int.natCast_inj.mp hcast] at hi)
        rw [show mkDots (t :: ts) (t : Int) =
              { slide := t, active := decide ((t : Int) = (t : Int)) } ::
                mkDots ts (t : Int) from rfl]
        rw [mkDots_of_not_mem ts (t : Int) hnm]
        simp [List.filter, filter_freshDots]
      · have hk' : k ∈ ts := by
          rcases List.mem_cons.mp hk with h | h
          · exact absurd h.symm hteq
          · exact h
        have hne : decide ((t : Int) = (k : Int)) = false := by
          simp [Int.natCast_inj, hteq]
        simp only [mkDots, List.map_cons, hne]
        rw [show (mkDots ts (k : Int) = ts.map fun i => { slide := i, active := decide ((i : Int) = (k : Int)) }) from rfl] at ih
        simpa [List.filter] using ih hts hk'

lemma mem_mkDots_active_iff (tags : List Nat) (k : Int) :
    ∀ d ∈ mkDots tags k, (d.active = true ↔ (d.slide : Int) = k) := by
  intro d hd
  simp only [mkDots, List.mem_map] at hd
  obtain ⟨i, _, rfl⟩ := hd
  simp

/-! ## Invariant preservation -/
lemma activateDot_some_int {n : Nat} {cur : Int} (h0 : 0 ≤ cur)
    (hlt : cur < (n : Int)) (s : SliderState)
    (hd : clearDots s.dots = freshDots (List.range n)) :
    activateDot cur s = some { s with dots := mkDots (List.range n) cur } := by
  obtain ⟨k, rfl⟩ : ∃ k : Nat, cur = (k : Int) :=
    ⟨cur.toNat, (Int.toNat_of_nonneg h0).symm⟩
  exact activateDot_some (by exact_mod_cast hlt) s hd

lemma nextIndex_bounds {n : Nat} (_hn : 1 ≤ n) {s : SliderState} (hN : s.numSlides = n)
    (h0 : 0 ≤ s.currentSlide) (hlt : s.currentSlide < (n : Int)) :
    0 ≤ nextIndex s ∧ nextIndex s < (n : Int) ∧
      nextIndex s = (s.currentSlide + 1) % (n : Int) := by
  unfold nextIndex
  rw [hN]
  by_cases hc : s.currentSlide = (n : Int) - 1
  · rw [if_pos hc]
    have h1 : s.currentSlide + 1 = (n : Int) := by omega
    refine ⟨le_refl 0, by omega, ?_⟩
    rw [h1, Int.emod_self]
  · rw [if_neg hc]
    exact ⟨by omega, by omega, (Int.emod_eq_of_lt (by omega) (by omega)).symm⟩

lemma prevIndex_bounds {n : Nat} (hn : 1 ≤ n) {s : SliderState} (hN : s.numSlides = n)
    (h0 : 0 ≤ s.currentSlide) (hlt : s.currentSlide < (n : Int)) :
    0 ≤ prevIndex s ∧ prevIndex s < (n : Int) ∧
      prevIndex s = (s.currentSlide - 1 + (n : Int)) % (n : Int) := by
  unfold prevIndex
  rw [hN]
  by_cases hc : s.currentSlide = 0
  · rw [if_pos hc, hc]
    refine ⟨by omega, by omega, ?_⟩
    rw [Int.emod_eq_of_lt (by omega) (by omega)]
    omega
  · rw [if_neg hc]
    refine ⟨by omega, by omega, ?_⟩
    have harith : s.currentSlide - 1 + (n : Int) =
        s.currentSlide - 1 + (n : Int) * 1 := by ring
    rw [harith, Int.add_mul_emod_self_left,
      Int.emod_eq_of_lt (by omega) (by omega)]

lemma nextSlide_inv {n : Nat} (hn : 1 ≤ n) {s : SliderState} (hs : sliderInv n s) :
    ∃ s', nextSlide s = some s' ∧ sliderInv n s' ∧
      s'.currentSlide = (s.currentSlide + 1) % (n : Int) := by
  obtain ⟨hN, h0, hlt, hdots, htr⟩ := hs
  obtain ⟨hb0, hb1, hmod⟩ := nextIndex_bounds hn hN h0 hlt
  have hclear : clearDots s.dots = freshDots (List.range n) := by
    rw [hdots]; exact clear_mkDots _ _
  refine ⟨{ s with
            currentSlide := nextIndex s
            transforms := slideMove s.numSlides (nextIndex s)
            dots := mkDots (List.range n) (nextIndex s) }, ?_, ?_, ?_⟩
  · show nextSlide s = _
    unfold nextSlide
    exact activateDot_some_int hb0 hb1 _ hclear
  · exact ⟨hN, hb0, hb1, rfl,
      by show slideMove s.numSlides (nextIndex s) = slideMove n (nextIndex s); rw [hN]⟩
  · exact hmod

lemma previousSlide_inv {n : Nat} (hn : 1 ≤ n) {s : SliderState} (hs : sliderInv n s) :
    ∃ s', previousSlide s = some s' ∧ sliderInv n s' ∧
      s'.currentSlide = (s.currentSlide - 1 + (n : Int)) % (n : Int) := by
  obtain ⟨hN, h0, hlt, hdots, htr⟩ := hs
  obtain ⟨hb0, hb1, hmod⟩ := prevIndex_bounds hn hN h0 hlt
  have hclear : clearDots s.dots = freshDots (List.range n) := by
    rw [hdots]; exact clear_mkDots _ _
  refine ⟨{ s with
            currentSlide := prevIndex s
            transforms := slideMove s.numSlides (prevIndex s)
            dots := mkDots (List.range n) (prevIndex s) }, ?_, ?_, ?_⟩
  · show previousSlide s = _
    unfold previousSlide
    exact activateDot_some_int hb0 hb1 _ hclear
  · exact ⟨hN, hb0, hb1, rfl,
      by show slideMove s.numSlides (prevIndex s) = slideMove n (prevIndex s); rw [hN]⟩
  · exact hmod

lemma dotClickHandler_inv {n : Nat} {s : SliderState} (hs : sliderInv n s)
    {t : ClickTarget} (ht : t.isDot = true → t.dataSlide < n) :
    ∃ s', dotClickHandler t s = some s' ∧ sliderInv n s' ∧
      (t.isDot = true → s'.currentSlide = (t.dataSlide : Int)) ∧
      (t.isDot = false → s' = s) := by
  obtain ⟨hN, h0, hlt, hdots, htr⟩ := hs
  by_cases hd : t.isDot = true
  · have hkn := ht hd
    have hclear : clearDots s.dots = freshDots (List.range n) := by
      rw [hdots]; exact clear_mkDots _ _
    refine ⟨{ s with
              currentSlide := (t.dataSlide : Int)
              transforms := slideMove s.numSlides (t.dataSlide : Int)
              dots := mkDots (List.range n) (t.dataSlide : Int) }, ?_, ?_, ?_, ?_⟩
    · show dotClickHandler t s = _
      unfold dotClickHandler
      rw [if_pos hd]
      exact activateDot_some_int (Int.natCast_nonneg _) (by exact_mod_cast hkn) _ hclear
    · exact ⟨hN, Int.natCast_nonneg _,
        by show ((t.dataSlide : Nat) : Int) < (n : Int); exact_mod_cast hkn, rfl,
        by show slideMove s.numSlides _ = slideMove n _; rw [hN]⟩
    · intro _; rfl
    · intro hcontra; simp [hd] at hcontra
  · refine ⟨s, ?_, ⟨hN, h0, hlt, hdots, htr⟩, ?_, fun _ => rfl⟩
    · unfold dotClickHandler
      rw [if_neg hd]
    · intro hcontra; exact absurd hcontra hd

lemma step_inv {n : Nat} (hn : 1 ≤ n) {s : SliderState} (hs : sliderInv n s)
    {e : SliderEvent} (he : e.valid n = true) :
    ∃ s', step e s = some s' ∧ sliderInv n s' := by
  cases e with
  | next =>
      obtain ⟨s', h1, h2, _⟩ := nextSlide_inv hn hs
      exact ⟨s', h1, h2⟩
  | prev =>
      obtain ⟨s', h1, h2, _⟩ := previousSlide_inv hn hs
      exact ⟨s', h1, h2⟩
  | dotClick t =>
      have ht : t.isDot = true → t.dataSlide < n := by
        intro hd
        simp [SliderEvent.valid, hd] at he
        exact he
      obtain ⟨s', h1, h2, _, _⟩ := dotClickHandler_inv ⟨hs.1, hs.2.1, hs.2.2.1, hs.2.2.2.1, hs.2.2.2.2⟩ ht
      exact ⟨s', h1, h2⟩

lemma runEvents_cons (e : SliderEvent) (es : List SliderEvent) (o : Option SliderState) :
    runEvents (e :: es) o = runEvents es (o.bind (step e)) := rfl

lemma runEvents_inv {n : Nat} (hn : 1 ≤ n) (es : List SliderEvent) :
    ∀ {s : SliderState}, es.all (fun e => e.valid n) = true → sliderInv n s →
      ∃ s', runEvents es (some s) = some s' ∧ sliderInv n s' := by
  induction es with
  | nil => intro s _ hs; exact ⟨s, rfl, hs⟩
  | cons e es ih =>
      intro s hv hs
      rw [List.all_cons, Bool.and_eq_true] at hv
      obtain ⟨he, hes⟩ := hv
      obtain ⟨s1, hstep, hinv1⟩ := step_inv hn hs he
      rw [runEvents_cons]
      have hbind : (some s).bind (step e) = some s1 := hstep
      rw [hbind]
      exact ih hes hinv1

lemma initSlider_inv {n : Nat} (hn : 1 ≤ n) :
    ∃ s, initSlider n = some s ∧ sliderInv n s ∧ s.currentSlide = 0 := by
  have hclear : clearDots (createDots n) = freshDots (List.range n) := by
    rw [createDots]; exact clear_freshDots _
  refine ⟨{ numSlides := n, currentSlide := 0,
            transforms := slideMove n 0, dots := mkDots (List.range n) 0 }, ?_, ?_, ?_⟩
  · show initSlider n = _
    unfold initSlider
    exact activateDot_some_int (le_refl 0) (by exact_mod_cast hn) _ hclear
  · exact ⟨rfl, le_refl 0, by show (0 : Int) < (n : Int); exact_mod_cast hn, rfl, rfl⟩
  · rfl

/-! ## Arithmetic of the wrap-around -/

lemma wrap_next_prev {cur m : Int} (h0 : 0 ≤ cur) (hlt : cur < m) :
    ((cur + 1) % m - 1 + m) % m = cur := by
  by_cases hc : cur + 1 = m
  · rw [hc, Int.emod_self]
    rw [@Int.emod_eq_of_lt (0 - 1 + m) m (by omega) (by omega)]
    omega
  · rw [@Int.emod_eq_of_lt (cur + 1) m (by omega) (by omega)]
    have h2 : cur + 1 - 1 + m = cur + m * 1 := by ring
    rw [h2, Int.add_mul_emod_self_left, @Int.emod_eq_of_lt cur m h0 hlt]

/-! ## Claim theorems for the carousel -/

/-- C1: for every slide count `N >= 1` and every finite sequence of next,
previous, and dot-click operations starting from the initial state
`currentSlide = 0`, the current index stays an integer in `[0, N-1]` (never
null, never out of range), and from every reachable state the increment and
decrement arithmetic wraps around modularly in both directions. -/
theorem c1_currentIndex_in_range (n : Nat) (hn : 1 ≤ n) (es : List SliderEvent)
    (hv : es.all (fun e => e.valid n) = true) :
    ∃ s, runEvents es (initSlider n) = some s ∧
      0 ≤ s.currentSlide ∧ s.currentSlide < (n : Int) ∧
      (∃ s', nextSlide s = some s' ∧
        s'.currentSlide = (s.currentSlide + 1) % (n : Int)) ∧
      (∃ s', previousSlide s = some s' ∧
        s'.currentSlide = (s.currentSlide - 1 + (n : Int)) % (n : Int)) := by
  obtain ⟨s0, hinit, hinv0, _⟩ := initSlider_inv hn
  rw [hinit]
  obtain ⟨s, hrun, hinv⟩ := runEvents_inv hn es hv hinv0
  obtain ⟨sn, hn1, _, hn2⟩ := nextSlide_inv hn hinv
  obtain ⟨sp, hp1, _, hp2⟩ := previousSlide_inv hn hinv
  exact ⟨s, hrun, hinv.2.1, hinv.2.2.1, ⟨sn, hn1, hn2⟩, ⟨sp, hp1, hp2⟩⟩

/-- C1 witness: the invariant instantiated at `N = 3` with a concrete event
sequence that wraps forward past the end, wraps backward, and clicks dot 2. -/
theorem c1_witness :
    1 ≤ 3 ∧
    ([SliderEvent.next, SliderEvent.next, SliderEvent.next, SliderEvent.prev,
      SliderEvent.dotClick { isDot := true, dataSlide := 2 }].all
        (fun e => e.valid 3) = true) ∧
    (∃ s, runEvents [SliderEvent.next, SliderEvent.next, SliderEvent.next,
        SliderEvent.prev, SliderEvent.dotClick { isDot := true, dataSlide := 2 }]
        (initSlider 3) = some s ∧
      0 ≤ s.currentSlide ∧ s.currentSlide < ((3 : Nat) : Int) ∧
      (∃ s', nextSlide s = some s' ∧
        s'.currentSlide = (s.currentSlide + 1) % ((3 : Nat) : Int)) ∧
      (∃ s', previousSlide s = some s' ∧
        s'.currentSlide = (s.currentSlide - 1 + ((3 : Nat) : Int)) % ((3 : Nat) : Int))) :=
  ⟨by decide, by decide, c1_currentIndex_in_range 3 (by decide) _ (by decide)⟩

/-- C2: after initialization completes and after every next, previous, or
dot-click operation, exactly one dot indicator carries the active class, and
the slide tag on that indicator equals the carousel current index. -/
theorem c2_exactly_one_active_dot (n : Nat) (hn : 1 ≤ n) (es : List SliderEvent)
    (hv : es.all (fun e => e.valid n) = true) :
    ∃ s, runEvents es (initSlider n) = some s ∧
      (s.dots.filter (fun d => d.active)).map (fun d => (d.slide : Int)) =
        [s.currentSlide] := by
  obtain ⟨s0, hinit, hinv0, _⟩ := initSlider_inv hn
  rw [hinit]
  obtain ⟨s, hrun, hinv⟩ := runEvents_inv hn es hv hinv0
  obtain ⟨hN, h0, hlt, hdots, htr⟩ := hinv
  refine ⟨s, hrun, ?_⟩
  have hk : s.currentSlide = ((s.currentSlide.toNat : Nat) : Int) :=
    (Int.toNat_of_nonneg h0).symm
  have hkn : s.currentSlide.toNat < n := by omega
  rw [hdots, hk,
    filter_mkDots (List.range n) s.currentSlide.toNat (List.nodup_range n)
      (List.mem_range.mpr hkn)]
  simp

/-- C2 witness: the active-dot synchronization at `N = 3` after a next, a
dot click on dot 0, and a previous (which wraps to index 2). -/
theorem c2_witness :
    1 ≤ 3 ∧
    ([SliderEvent.next, SliderEvent.dotClick { isDot := true, dataSlide := 0 },
      SliderEvent.prev].all (fun e => e.valid 3) = true) ∧
    (∃ s, runEvents [SliderEvent.next,
        SliderEvent.dotClick { isDot := true, dataSlide := 0 }, SliderEvent.prev]
        (initSlider 3) = some s ∧
      (s.dots.filter (fun d => d.active)).map (fun d => (d.slide : Int)) =
        [s.currentSlide]) :=
  ⟨by decide, by decide, c2_exactly_one_active_dot 3 (by decide) _ (by decide)⟩

/-- C3: from every reachable slider state, previous undoes next: executing
`nextSlide` then `previousSlide` restores `currentSlide`. -/
theorem c3_previous_inverse_of_next (n : Nat) (hn : 1 ≤ n) (s : SliderState)
    (hs : sliderInv n s) :
    ∃ s', (nextSlide s).bind previousSlide = some s' ∧
      s'.currentSlide = s.currentSlide := by
  obtain ⟨s1, hnx, hinv1, hmod1⟩ := nextSlide_inv hn hs
  obtain ⟨s2, hpv, _, hmod2⟩ := previousSlide_inv hn hinv1
  refine ⟨s2, ?_, ?_⟩
  · rw [hnx]
    exact hpv
  · rw [hmod2, hmod1]
    exact wrap_next_prev hs.2.1 hs.2.2.1

/-- C3 witness: next-then-previous at `N = 3` from the wrap-around state
`currentSlide = 2`. -/
theorem c3_witness :
    1 ≤ 3 ∧
    sliderInv 3 { numSlides := 3
                  currentSlide := 2
                  transforms := slideMove 3 2
                  dots := mkDots (List.range 3) 2 } ∧
    (∃ s', (nextSlide { numSlides := 3
                        currentSlide := 2
                        transforms := slideMove 3 2
                        dots := mkDots (List.range 3) 2 }).bind previousSlide = some s' ∧
      s'.currentSlide = SliderState.currentSlide { numSlides := 3
                                                   currentSlide := 2
                                                   transforms := slideMove 3 2
                                                   dots := mkDots (List.range 3) 2 }) :=
  ⟨by decide, by decide, c3_previous_inverse_of_next 3 (by decide) _ (by decide)⟩

/-- C4: clicking the dot tagged `k`, from any reachable carousel state, sets
`currentSlide = k`, renders the slide transforms for index `k`, and makes a
dot active exactly when its tag is `k`. -/
theorem c4_dot_click_goto (n k : Nat) (hk : k < n) (s : SliderState)
    (hs : sliderInv n s) :
    ∃ s', dotClickHandler { isDot := true, dataSlide := k } s = some s' ∧
      s'.currentSlide = (k : Int) ∧
      s'.transforms = slideMove n (k : Int) ∧
      (∀ d ∈ s'.dots, (d.active = true ↔ (d.slide : Int) = (k : Int))) := by
  have ht : ClickTarget.isDot { isDot := true, dataSlide := k } = true →
      ClickTarget.dataSlide { isDot := true, dataSlide := k } < n := fun _ => hk
  obtain ⟨s', h1, hinv', hcur, _⟩ := dotClickHandler_inv hs ht
  have hc : s'.currentSlide = (k : Int) := hcur rfl
  obtain ⟨hN, h0, hlt, hdots, htr⟩ := hinv'
  refine ⟨s', h1, hc, ?_, ?_⟩
  · rw [htr, hc]
  · rw [hdots, hc]
    exact mem_mkDots_active_iff (List.range n) (k : Int)

/-- C4 witness: the scenario of the specification: `N = 4`, index 0, click
indicator 2: the current index becomes 2 and exactly dot 2 is active. -/
theorem c4_witness :
    2 < 4 ∧
    sliderInv 4 { numSlides := 4
                  currentSlide := 0
                  transforms := slideMove 4 0
                  dots := mkDots (List.range 4) 0 } ∧
    (∃ s', dotClickHandler { isDot := true, dataSlide := 2 }
        { numSlides := 4
          currentSlide := 0
          transforms := slideMove 4 0
          dots := mkDots (List.range 4) 0 } = some s' ∧
      s'.currentSlide = ((2 : Nat) : Int) ∧
      s'.transforms = slideMove 4 ((2 : Nat) : Int) ∧
      (∀ d ∈ s'.dots, (d.active = true ↔ (d.slide : Int) = ((2 : Nat) : Int)))) :=
  ⟨by decide, by decide, c4_dot_click_goto 4 2 (by decide) _ (by decide)⟩

/-- C10: initialization succeeds and every valid operation applied to a
reachable state succeeds: each `activateDot` lookup (from `nextSlide`,
`previousSlide`, a dot click, or the initial `activateDot 0`) finds a dot
created by `createDots`, so no null element is dereferenced. -/
theorem c10_activateDot_finds_dot (n : Nat) (hn : 1 ≤ n) (es : List SliderEvent)
    (hv : es.all (fun e => e.valid n) = true) (e : SliderEvent)
    (he : e.valid n = true) :
    (initSlider n).isSome = true ∧
    ((runEvents es (initSlider n)).bind (step e)).isSome = true := by
  obtain ⟨s0, hinit, hinv0, _⟩ := initSlider_inv hn
  obtain ⟨s, hrun, hinv⟩ := runEvents_inv hn es hv hinv0
  obtain ⟨s', hstep, _⟩ := step_inv hn hinv he
  constructor
  · rw [hinit]
    rfl
  · rw [hinit, hrun]
    have hb : (some s).bind (step e) = step e s := rfl
    rw [hb, hstep]
    rfl

/-- C10 witness: totality at `N = 2` for a concrete trace and a final
previous operation. -/
theorem c10_witness :
    1 ≤ 2 ∧
    ([SliderEvent.next, SliderEvent.next,
      SliderEvent.dotClick { isDot := true, dataSlide := 1 }].all
        (fun e => e.valid 2) = true) ∧
    SliderEvent.valid SliderEvent.prev 2 = true ∧
    ((initSlider 2).isSome = true ∧
      ((runEvents [SliderEvent.next, SliderEvent.next,
          SliderEvent.dotClick { isDot := true, dataSlide := 1 }]
          (initSlider 2)).bind (step SliderEvent.prev)).isSome = true) :=
  ⟨by decide, by decide, by decide,
    c10_activateDot_finds_dot 2 (by decide) _ (by decide) SliderEvent.prev (by decide)⟩

/-! ## Keyboard gate and visibility callbacks (src/unnamed/part_001, lines 303-332)

The document-level `keydown` listeners of the page: the slider's `handleKey`
and the modal's Escape handler (line 492).  `addEventListener` with the same
function reference is idempotent (the DOM discards a duplicate registration);
`removeEventListener` removes the matching registration. -/

inductive Handler where
  | handleKey : Handler
  | modalKey : Handler
deriving DecidableEq, Repr

/-- An `IntersectionObserverEntry` as the callbacks read it: only
`isIntersecting` is consulted. -/
structure Entry where
  isIntersecting : Bool
deriving DecidableEq, Repr

def addEventListener (h : Handler) (ls : List Handler) : List Handler :=
  if h ∈ ls then ls else ls ++ [h]

def removeEventListener (h : Handler) (ls : List Handler) : List Handler :=
  ls.erase h

/-- Lines 317-324: `sliderView` destructures `const [entry] = entries` and
reads `entry.isIntersecting`.  With no entry, `entry` is `undefined` and the
property read throws a `TypeError`; otherwise the `keydown` listener
`handleKey` is attached or detached. -/
def sliderView (entries : List Entry) (ls : List Handler) :
    Except String (List Handler) :=
  match entries.head? with
  | none => Except.error "TypeError: cannot read isIntersecting of undefined"
  | some entry =>
      if entry.isIntersecting then Except.ok (addEventListener Handler.handleKey ls)
      else Except.ok (removeEventListener Handler.handleKey ls)

/-- Lines 60-65 (and part_000 lines 110-118): `stickyNav` destructures
`const [entry] = entries` the same way and toggles the `sticky` class on the
nav; the result is whether `sticky` is present afterwards. -/
def stickyNav (entries : List Entry) (_sticky : Bool) : Except String Bool :=
  match entries.head? with
  | none => Except.error "TypeError: cannot read isIntersecting of undefined"
  | some entry =>
      if !entry.isIntersecting then Except.ok true else Except.ok false

/-- A sequence of visibility callbacks delivered to `sliderView`.  A callback
that throws leaves the listener state unchanged (the exception is raised
before any attach/detach has happened) and the page continues. -/
def runCallbacks (cbs : List (List Entry)) (ls : List Handler) : List Handler :=
  cbs.foldl (fun acc cb =>
    match sliderView cb acc with
    | Except.ok ls' => ls'
    | Except.error _ => acc) ls

lemma count_addEventListener_le (ls : List Handler)
    (h : ls.count Handler.handleKey ≤ 1) :
    (addEventListener Handler.handleKey ls).count Handler.handleKey ≤ 1 := by
  unfold addEventListener
  by_cases hm : Handler.handleKey ∈ ls
  · rw [if_pos hm]; exact h
  · rw [if_neg hm]
    rw [List.count_append]
    rw [List.count_eq_zero_of_not_mem hm]
    simp

lemma count_addEventListener_eq (ls : List Handler)
    (h : ls.count Handler.handleKey ≤ 1) :
    (addEventListener Handler.handleKey ls).count Handler.handleKey = 1 := by
  unfold addEventListener
  by_cases hm : Handler.handleKey ∈ ls
  · rw [if_pos hm]
    have : 0 < ls.count Handler.handleKey := List.count_pos_iff.mpr hm
    omega
  · rw [if_neg hm]
    rw [List.count_append]
    rw [List.count_eq_zero_of_not_mem hm]
    simp

lemma count_removeEventListener (ls : List Handler) :
    (removeEventListener Handler.handleKey ls).count Handler.handleKey =
      ls.count Handler.handleKey - 1 := by
  unfold removeEventListener
  exact List.count_erase_self _ _

lemma runCallbacks_le_one (cbs : List (List Entry)) :
    ∀ ls : List Handler, ls.count Handler.handleKey ≤ 1 →
      (runCallbacks cbs ls).count Handler.handleKey ≤ 1 := by
  induction cbs with
  | nil => intro ls h; exact h
  | cons cb cbs ih =>
      intro ls h
      show (runCallbacks cbs _).count Handler.handleKey ≤ 1
      cases hh : cb.head? with
      | none =>
          apply ih
          simp [sliderView, hh]
          exact h
      | some entry =>
          by_cases hi : entry.isIntersecting = true
          · apply ih
            simp [sliderView, hh, hi]
            exact count_addEventListener_le ls h
          · apply ih
            simp [sliderView, hh, hi]
            rw [count_removeEventListener]
            omega

/-- C5: over every sequence of visibility callbacks for the slider region,
at most one carousel `keydown` listener is attached at any time; an enter
event while already attached leaves the listener list unchanged (no
stacking), and an exit event always leaves zero carousel listeners. -/
theorem c5_at_most_one_listener (cbs : List (List Entry)) (ls : List Handler)
    (h : ls.count Handler.handleKey ≤ 1) :
    (runCallbacks cbs ls).count Handler.handleKey ≤ 1 ∧
    (Handler.handleKey ∈ ls →
      sliderView [{ isIntersecting := true }] ls = Except.ok ls) ∧
    (∀ ls', sliderView [{ isIntersecting := false }] ls = Except.ok ls' →
      ls'.count Handler.handleKey = 0) := by
  refine ⟨runCallbacks_le_one cbs ls h, ?_, ?_⟩
  · intro hm
    simp [sliderView, addEventListener, hm]
  · intro ls' h'
    simp [sliderView] at h'
    rw [← h', count_removeEventListener]
    omega

/-- C5 witness: two enter events then an exit, starting from the page's
initial listener list (only the modal's Escape handler attached). -/
theorem c5_witness :
    ([Handler.modalKey].count Handler.handleKey ≤ 1) ∧
    ((runCallbacks [[{ isIntersecting := true }], [{ isIntersecting := true }],
        [{ isIntersecting := false }]] [Handler.modalKey]).count Handler.handleKey ≤ 1 ∧
     (Handler.handleKey ∈ [Handler.modalKey] →
       sliderView [{ isIntersecting := true }] [Handler.modalKey] =
         Except.ok [Handler.modalKey]) ∧
     (∀ ls', sliderView [{ isIntersecting := false }] [Handler.modalKey] =
         Except.ok ls' → ls'.count Handler.handleKey = 0)) :=
  ⟨by decide,
    c5_at_most_one_listener
      [[{ isIntersecting := true }], [{ isIntersecting := true }],
       [{ isIntersecting := false }]] [Handler.modalKey] (by decide)⟩

/-! ## Modal (src/unnamed/part_001, lines 437-497) -/

/-- The modal's DOM state: the `hidden` class on `.modal` and `.overlay`,
`document.body.style.overflow`, and the top-level `previousOverflow`
variable (`undefined` before the first open, embedded as `none`). -/
structure ModalState where
  modalHidden : Bool
  overlayHidden : Bool
  bodyOverflow : String
  previousOverflow : Option String
deriving DecidableEq, Repr

/-- Lines 455-460: `openModal` saves the current body overflow into
`previousOverflow`, unhides the modal and the overlay, and sets the body
overflow to `hidden`. -/
def openModal (m : ModalState) : ModalState :=
  { modalHidden := false
    overlayHidden := false
    bodyOverflow := "hidden"
    previousOverflow := some m.bodyOverflow }

/-- Lines 474-478: `closeModal` hides the modal and the overlay and assigns
`previousOverflow` back to the body overflow.  Before any open,
`previousOverflow` is `undefined` and assigning `undefined` to a style
property is ignored by the CSSOM, leaving the overflow unchanged. -/
def closeModal (m : ModalState) : ModalState :=
  { m with
    modalHidden := true
    overlayHidden := true
    bodyOverflow :=
      match m.previousOverflow with
      | some v => v
      | none => m.bodyOverflow }

/-- Lines 492-497: the document `keydown` handler closes the modal on
Escape while the modal is visible and otherwise does nothing. -/
def modalKeydown (key : String) (m : ModalState) : ModalState :=
  if key = "Escape" ∧ m.modalHidden = false then closeModal m else m

/-- The ways the modal is opened and closed (lines 463-465, 481, 490,
492-497): a show-modal button click, the close button, an overlay click,
and the Escape key. -/
inductive ModalEvent where
  | openClick : ModalEvent
  | closeClick : ModalEvent
  | overlayClick : ModalEvent
  | escapeKey : ModalEvent
deriving DecidableEq, Repr

def modalStep : ModalEvent → ModalState → ModalState
  | ModalEvent.openClick, m => openModal m
  | ModalEvent.closeClick, m => closeModal m
  | ModalEvent.overlayClick, m => closeModal m
  | ModalEvent.escapeKey, m => modalKeydown "Escape" m

/-- C8: whatever scroll-lock state the body had before the modal was
opened, closing the modal (close button, overlay click, or Escape while
open) restores exactly that state: it is saved at open and restored at
close, not set to a hardcoded value. -/
theorem c8_scroll_lock_restored (m : ModalState) (c : ModalEvent)
    (hc : c = ModalEvent.closeClick ∨ c = ModalEvent.overlayClick ∨
      c = ModalEvent.escapeKey) :
    (modalStep c (modalStep ModalEvent.openClick m)).bodyOverflow =
      m.bodyOverflow ∧
    (modalStep c (modalStep ModalEvent.openClick m)).modalHidden = true := by
  rcases hc with h | h | h <;> subst h <;>
    simp [modalStep, openModal, closeModal, modalKeydown]

/-- C8 witness: body overflow `auto` is restored after open then Escape. -/
theorem c8_witness :
    (ModalEvent.escapeKey = ModalEvent.closeClick ∨
      ModalEvent.escapeKey = ModalEvent.overlayClick ∨
      ModalEvent.escapeKey = ModalEvent.escapeKey) ∧
    ((modalStep ModalEvent.escapeKey (modalStep ModalEvent.openClick
        { modalHidden := true
          overlayHidden := true
          bodyOverflow := "auto"
          previousOverflow := none })).bodyOverflow = "auto" ∧
     (modalStep ModalEvent.escapeKey (modalStep ModalEvent.openClick
        { modalHidden := true
          overlayHidden := true
          bodyOverflow := "auto"
          previousOverflow := none })).modalHidden = true) :=
  ⟨Or.inr (Or.inr rfl),
    c8_scroll_lock_restored
      { modalHidden := true
        overlayHidden := true
        bodyOverflow := "auto"
        previousOverflow := none }
      ModalEvent.escapeKey (Or.inr (Or.inr rfl))⟩

/-! ## Page-level keydown dispatch (lines 303-332 with the modal handler) -/

/-- Lines 307-310: `handleKey` maps ArrowRight to `nextSlide` and ArrowLeft
to `previousSlide`, ignoring every other key. -/
def handleKey (key : String) (s : SliderState) : Option SliderState :=
  if key = "ArrowRight" then nextSlide s
  else if key = "ArrowLeft" then previousSlide s
  else some s

/-- The page state the keyboard gate touches: the slider, the attached
document keydown listeners, and the modal. -/
structure PageState where
  slider : SliderState
  listeners : List Handler
  modal : ModalState
deriving DecidableEq, Repr

/-- One attached keydown listener run on a key event. -/
def runHandler (key : String) (p : PageState) : Handler → Option PageState
  | Handler.handleKey =>
      (handleKey key p.slider).map (fun s => { p with slider := s })
  | Handler.modalKey => some { p with modal := modalKeydown key p.modal }

def foldHandlers (key : String) (hs : List Handler) (o : Option PageState) :
    Option PageState :=
  hs.foldl (fun acc h => acc.bind (fun q => runHandler key q h)) o

/-- A document keydown event runs every attached listener in attachment
order. -/
def dispatchKeydown (key : String) (p : PageState) : Option PageState :=
  foldHandlers key p.listeners (some p)

/-- The slider visibility callback acting on the whole page state: it only
attaches or detaches the slider keydown listener. -/
def sliderVisCallback (entries : List Entry) (p : PageState) :
    Except String PageState :=
  match sliderView entries p.listeners with
  | Except.ok ls => Except.ok { p with listeners := ls }
  | Except.error e => Except.error e

lemma foldHandlers_cons (key : String) (h : Handler) (hs : List Handler)
    (p : PageState) :
    foldHandlers key (h :: hs) (some p) =
      foldHandlers key hs (runHandler key p h) := rfl

lemma foldHandlers_no_handleKey (key : String) (hs : List Handler) :
    Handler.handleKey ∉ hs →
    ∀ p : PageState, ∃ p', foldHandlers key hs (some p) = some p' ∧
      p'.slider = p.slider ∧ p'.listeners = p.listeners := by
  induction hs with
  | nil => intro _ p; exact ⟨p, rfl, rfl, rfl⟩
  | cons h hs ih =>
      intro hm p
      cases h with
      | handleKey => exact absurd (List.mem_cons_self _ _) hm
      | modalKey =>
          have hm' : Handler.handleKey ∉ hs := fun hx => hm (List.mem_cons_of_mem _ hx)
          rw [foldHandlers_cons]
          obtain ⟨p', h1, h2, h3⟩ := ih hm' { p with modal := modalKeydown key p.modal }
          exact ⟨p', h1, h2, h3⟩

lemma foldHandlers_other_key (key : String) (hAR : key ≠ "ArrowRight")
    (hAL : key ≠ "ArrowLeft") (hs : List Handler) :
    ∀ p : PageState, ∃ p', foldHandlers key hs (some p) = some p' ∧
      p'.slider = p.slider ∧ p'.listeners = p.listeners := by
  induction hs with
  | nil => intro p; exact ⟨p, rfl, rfl, rfl⟩
  | cons h hs ih =>
      intro p
      cases h with
      | handleKey =>
          rw [foldHandlers_cons]
          have hrun : runHandler key p Handler.handleKey = some p := by
            show (handleKey key p.slider).map _ = some p
            unfold handleKey
            rw [if_neg hAR, if_neg hAL]
            rfl
          rw [hrun]
          exact ih p
      | modalKey =>
          rw [foldHandlers_cons]
          obtain ⟨p', h1, h2, h3⟩ := ih { p with modal := modalKeydown key p.modal }
          exact ⟨p', h1, h2, h3⟩

lemma foldHandlers_arrow_right {n : Nat} (hn : 1 ≤ n) (hs : List Handler) :
    hs.count Handler.handleKey = 1 →
    ∀ p : PageState, sliderInv n p.slider →
      ∃ p', foldHandlers "ArrowRight" hs (some p) = some p' ∧
        sliderInv n p'.slider ∧ p'.listeners = p.listeners ∧
        p'.slider.currentSlide = (p.slider.currentSlide + 1) % (n : Int) := by
  induction hs with
  | nil => intro hc; simp at hc
  | cons h hs ih =>
      intro hc p hinv
      cases h with
      | handleKey =>
          have hc0 : hs.count Handler.handleKey = 0 := by
            rw [List.count_cons_self] at hc; omega
          have hm : Handler.handleKey ∉ hs := by
            intro hx
            have := List.count_pos_iff.mpr hx
            omega
          obtain ⟨s1, hnx, hinv1, hmod⟩ := nextSlide_inv hn hinv
          rw [foldHandlers_cons]
          have hrun : runHandler "ArrowRight" p Handler.handleKey =
              some { p with slider := s1 } := by
            show (handleKey "ArrowRight" p.slider).map _ = _
            unfold handleKey
            rw [if_pos rfl, hnx]
            rfl
          rw [hrun]
          obtain ⟨p', h1, h2, h3⟩ :=
            foldHandlers_no_handleKey "ArrowRight" hs hm { p with slider := s1 }
          refine ⟨p', h1, ?_, ?_, ?_⟩
          · rw [h2]; exact hinv1
          · exact h3
          · rw [h2]; exact hmod
      | modalKey =>
          have hc' : hs.count Handler.handleKey = 1 := by
            simpa [List.count_cons] using hc
          rw [foldHandlers_cons]
          obtain ⟨p', h1, h2, h3, h4⟩ :=
            ih hc' { p with modal := modalKeydown "ArrowRight" p.modal } hinv
          exact ⟨p', h1, h2, h3, h4⟩

lemma emod_succ_emod (a m : Int) : (a % m + 1) % m = (a + 1) % m := by
  rw [Int.add_emod, Int.emod_emod_of_dvd a (dvd_refl m), ← Int.add_emod]

/-- C6: after a visibility-enter callback for the slider, two ArrowRight
keydowns advance the current index by 2 modulo N; after a subsequent
visibility-exit callback, an ArrowRight keydown leaves the index unchanged;
and a keydown for any key other than ArrowRight/ArrowLeft never changes the
index, in any page state. -/
theorem c6_keyboard_gate (n : Nat) (hn : 1 ≤ n) (p p1 p2 : PageState)
    (hinv : sliderInv n p.slider)
    (hcount : p.listeners.count Handler.handleKey ≤ 1)
    (h1 : sliderVisCallback [{ isIntersecting := true }] p = Except.ok p1)
    (h2 : sliderVisCallback [{ isIntersecting := false }] p1 = Except.ok p2)
    (key : String) (q : PageState)
    (hk1 : key ≠ "ArrowRight") (hk2 : key ≠ "ArrowLeft") :
    (∃ p', (dispatchKeydown "ArrowRight" p1).bind
        (dispatchKeydown "ArrowRight") = some p' ∧
      p'.slider.currentSlide = (p.slider.currentSlide + 2) % (n : Int)) ∧
    (∃ p', dispatchKeydown "ArrowRight" p2 = some p' ∧
      p'.slider.currentSlide = p.slider.currentSlide) ∧
    (∃ p', dispatchKeydown key q = some p' ∧
      p'.slider.currentSlide = q.slider.currentSlide) := by
  rw [show sliderVisCallback [{ isIntersecting := true }] p = Except.ok { p with listeners := addEventListener Handler.handleKey p.listeners } from rfl] at h1
  have hp1 : p1 = { p with listeners := addEventListener Handler.handleKey p.listeners } :=
    (Except.ok.inj h1).symm
  subst hp1
  rw [show sliderVisCallback [{ isIntersecting := false }] { p with listeners := addEventListener Handler.handleKey p.listeners } = Except.ok { p with listeners := removeEventListener Handler.handleKey (addEventListener Handler.handleKey p.listeners) } from rfl] at h2
  have hp2 : p2 = { p with listeners := removeEventListener Handler.handleKey (addEventListener Handler.handleKey p.listeners) } :=
    (Except.ok.inj h2).symm
  subst hp2
  have hcount1 : (addEventListener Handler.handleKey p.listeners).count
      Handler.handleKey = 1 := count_addEventListener_eq p.listeners hcount
  refine ⟨?_, ?_, ?_⟩
  · obtain ⟨pa, ha1, ha2, ha3, ha4⟩ :=
      foldHandlers_arrow_right hn (addEventListener Handler.handleKey p.listeners)
        hcount1
        { p with listeners := addEventListener Handler.handleKey p.listeners }
        hinv
    obtain ⟨pb, hb1, hb2, hb3, hb4⟩ :=
      foldHandlers_arrow_right hn pa.listeners
        (by rw [ha3]; exact hcount1) pa ha2
    refine ⟨pb, ?_, ?_⟩
    · rw [show dispatchKeydown "ArrowRight"
          { p with listeners := addEventListener Handler.handleKey p.listeners } =
          some pa from ha1]
      exact hb1
    · rw [hb4, ha4]
      show ((p.slider.currentSlide + 1) % (n : Int) + 1) % (n : Int) =
        (p.slider.currentSlide + 2) % (n : Int)
      rw [emod_succ_emod]
      congr 1
      ring
  · have hzero : (removeEventListener Handler.handleKey
        (addEventListener Handler.handleKey p.listeners)).count
        Handler.handleKey = 0 := by
      rw [count_removeEventListener, hcount1]
    have hm : Handler.handleKey ∉ removeEventListener Handler.handleKey
        (addEventListener Handler.handleKey p.listeners) := by
      intro hx
      have := List.count_pos_iff.mpr hx
      omega
    obtain ⟨pc, hc1, hc2, _⟩ :=
      foldHandlers_no_handleKey "ArrowRight" _ hm { p with listeners := removeEventListener Handler.handleKey (addEventListener Handler.handleKey p.listeners) }
    refine ⟨pc, hc1, ?_⟩
    rw [hc2]
  · obtain ⟨qc, hq1, hq2, _⟩ := foldHandlers_other_key key hk1 hk2 q.listeners q
    refine ⟨qc, hq1, ?_⟩
    rw [hq2]

/-- The concrete page used to witness C6: two slides at index 0, only the
modal Escape handler attached, modal closed. -/
def c6Slider : SliderState :=
  { numSlides := 2
    currentSlide := 0
    transforms := slideMove 2 0
    dots := mkDots (List.range 2) 0 }

def c6Modal : ModalState :=
  { modalHidden := true
    overlayHidden := true
    bodyOverflow := ""
    previousOverflow := none }

def c6Page : PageState :=
  { slider := c6Slider, listeners := [Handler.modalKey], modal := c6Modal }

def c6Page1 : PageState :=
  { slider := c6Slider
    listeners := [Handler.modalKey, Handler.handleKey]
    modal := c6Modal }

/-- C6 witness: the keyboard gate at `N = 2` with an enter, two ArrowRight
presses, an exit, and an unrelated key. -/
theorem c6_witness :
    1 ≤ 2 ∧
    sliderInv 2 c6Page.slider ∧
    c6Page.listeners.count Handler.handleKey ≤ 1 ∧
    sliderVisCallback [{ isIntersecting := true }] c6Page = Except.ok c6Page1 ∧
    sliderVisCallback [{ isIntersecting := false }] c6Page1 = Except.ok c6Page ∧
    "Enter" ≠ "ArrowRight" ∧ "Enter" ≠ "ArrowLeft" ∧
    ((∃ p', (dispatchKeydown "ArrowRight" c6Page1).bind
        (dispatchKeydown "ArrowRight") = some p' ∧
      p'.slider.currentSlide = (c6Page.slider.currentSlide + 2) % ((2 : Nat) : Int)) ∧
    (∃ p', dispatchKeydown "ArrowRight" c6Page = some p' ∧
      p'.slider.currentSlide = c6Page.slider.currentSlide) ∧
    (∃ p', dispatchKeydown "Enter" c6Page = some p' ∧
      p'.slider.currentSlide = c6Page.slider.currentSlide)) :=
  ⟨by decide, by decide, by decide, rfl, rfl, by decide, by decide,
    c6_keyboard_gate 2 (by decide) c6Page c6Page1 c6Page (by decide) (by decide)
      rfl rfl "Enter" c6Page (by decide) (by decide)⟩

/-! ## C7: malformed visibility callbacks -/

/-- C7 counterexample: invoked with an empty entries array, `sliderView`
does not treat the region as not intersecting and return normally; the
destructured `entry` is `undefined` and reading `entry.isIntersecting`
throws a `TypeError`.  Evaluated at the page's initial listener list. -/
theorem c7_counterexample :
    sliderView [] [Handler.modalKey] =
      Except.error "TypeError: cannot read isIntersecting of undefined" := rfl

/-- C7 amended: a visibility callback invoked with an empty entries array
raises a `TypeError` (it neither treats the region as not intersecting nor
returns normally), in `sliderView` and in `stickyNav` alike; because the
exception is thrown before any attach/detach, the listener state is left
unchanged. -/
theorem c7_empty_entries_raise :
    (∀ ls : List Handler, ∃ msg, sliderView [] ls = Except.error msg) ∧
    (∀ b : Bool, ∃ msg, stickyNav [] b = Except.error msg) ∧
    (∀ ls : List Handler, runCallbacks [[]] ls = ls) :=
  ⟨fun _ => ⟨_, rfl⟩, fun _ => ⟨_, rfl⟩, fun _ => rfl⟩

/-! ## Tab switching (src/script.js lines 90-108; src/unnamed/part_002
lines 149-166; src/unnamed/part_000 lines 82-94) -/

/-- A DOM element as the tab handlers see it: its class list and its
`data-tab` attribute. -/
structure Elem where
  classes : List String
  dataTab : Option String
deriving DecidableEq, Repr

/-- `target.closest('.cls')`: the first element, from the target up through
its ancestors, whose class list contains `cls`; `none` embeds `null`. -/
def closest (cls : String) : List Elem → Option Elem
  | [] => none
  | e :: rest => if cls ∈ e.classes then some e else closest cls rest

/-- The active flags of the operations tabs and of the content panels,
keyed by `data-tab` tag, in document order. -/
structure TabState where
  tabs : List (String × Bool)
  contents : List (String × Bool)
deriving DecidableEq, Repr

/-- `querySelector` on a tag-keyed list followed by `classList.add`: mark
the first entry with the given tag active. -/
def markFirst (sel : String) : List (String × Bool) → List (String × Bool)
  | [] => []
  | q :: rest => if q.1 = sel then (q.1, true) :: rest else q :: markFirst sel rest

/-- The shared body of both tab-switching variants once a clicked tab
button is found: remove the active class from every tab, add it to the
clicked tab, remove the active class from every content panel, and add it
to the panel found by
`querySelector('.operations__content--` + `${clicked.dataset.tab}')`.
If no panel matches, `querySelector` returns `null` and the `classList.add`
on it throws, embedded as `none`.  The clicked tab button is identified in
the state by its tag (tags are distinct in the page); a missing `data-tab`
stringifies to "undefined" inside the template literal. -/
def switchTabBody (clicked : Elem) (st : TabState) : Option TabState :=
  let tabs1 := st.tabs.map (fun q => (q.1, false))
  let tabs2 := match clicked.dataTab with
    | some t => markFirst t tabs1
    | none => tabs1
  let contents1 := st.contents.map (fun q => (q.1, false))
  let sel := clicked.dataTab.getD "undefined"
  if contents1.any (fun q => q.1 == sel) then
    some { tabs := tabs2, contents := markFirst sel contents1 }
  else none

/-- Modelled from the spec: the operations section of the page (its HTML,
`index.html`, is not under src/).  Each tab is a button element carrying
both the generic button class `btn` and the tab class `operations__tab`,
tagged with its `data-tab` value (the spec calls the delegation target "the
tab button itself"); the container carries only its own class; a click
inside a tab button may land on the button itself or on an inner element
with no classes. -/
def tabElem (tag : String) : Elem :=
  { classes := ["btn", "operations__tab"], dataTab := some tag }

def containerElem : Elem :=
  { classes := ["operations__tab-container"], dataTab := none }

def innerElem : Elem :=
  { classes := [], dataTab := none }

/-- src/script.js lines 90-108: the container click handler resolves the
target via `closest('.btn')` and acts unless nothing was found or the found
element is `event.currentTarget` (the container). -/
def operationsTabClick (container : Elem) (chain : List Elem) (st : TabState) :
    Option TabState :=
  match closest "btn" chain with
  | none => some st
  | some clicked =>
      if clicked = container then some st else switchTabBody clicked st

/-- src/unnamed/part_002 lines 149-166 (and part_000 lines 82-94):
`switchTab` resolves the target via `closest('.operations__tab')` and
returns when nothing is found. -/
def switchTab (chain : List Elem) (st : TabState) : Option TabState :=
  match closest "operations__tab" chain with
  | none => some st
  | some clicked => switchTabBody clicked st

/-- A click delivered to the operations tab container: on the tab button
tagged `tag` (directly, or through an untagged inner element), or on the
container background. -/
inductive TabClick where
  | onTab : String → Bool → TabClick
  | background : TabClick
deriving DecidableEq, Repr

/-- The ancestor chain of the click target, ending at the container. -/
def clickChain : TabClick → List Elem
  | TabClick.onTab tag true => [tabElem tag, containerElem]
  | TabClick.onTab tag false => [innerElem, tabElem tag, containerElem]
  | TabClick.background => [containerElem]

/-- A click event valid for the modelled page: a clicked tab carries one of
the page's tags. -/
def TabClick.okFor (tags : List String) : TabClick → Prop
  | TabClick.onTab t _ => t ∈ tags
  | TabClick.background => True

instance decTabClickOk (tags : List String) (c : TabClick) :
    Decidable (TabClick.okFor tags c) :=
  match c with
  | TabClick.onTab t _ => inferInstanceAs (Decidable (t ∈ tags))
  | TabClick.background => inferInstanceAs (Decidable True)

def activeKeys (l : List (String × Bool)) : List String :=
  (l.filter (fun q => q.2)).map (fun q => q.1)

lemma activeKeys_all_false (l : List (String × Bool)) :
    (∀ q ∈ l, q.2 = false) → activeKeys l = [] := by
  induction l with
  | nil => intro _; rfl
  | cons q rest ih =>
      intro h
      have hq : q.2 = false := h q (List.mem_cons_self _ _)
      have h' : ∀ r ∈ rest, r.2 = false := fun r hr => h r (List.mem_cons_of_mem _ hr)
      unfold activeKeys
      rw [List.filter_cons, hq]
      simpa [activeKeys] using ih h'

lemma activeKeys_markFirst (t : String) (l : List (String × Bool)) :
    (∀ q ∈ l, q.2 = false) → t ∈ l.map Prod.fst →
    activeKeys (markFirst t l) = [t] := by
  induction l with
  | nil => intro _ ht; simp at ht
  | cons q rest ih =>
      intro hall ht
      have h' : ∀ r ∈ rest, r.2 = false :=
        fun r hr => hall r (List.mem_cons_of_mem _ hr)
      by_cases hq : q.1 = t
      · have hmark : markFirst t (q :: rest) = (q.1, true) :: rest := by
          simp only [markFirst]
          rw [if_pos hq]
        have hrest : activeKeys rest = [] := activeKeys_all_false rest h'
        rw [hmark]
        unfold activeKeys at hrest ⊢
        rw [List.filter_cons]
        simp [hq, hrest]
      · have hmark : markFirst t (q :: rest) = q :: markFirst t rest := by
          simp only [markFirst]
          rw [if_neg hq]
        have hq2 : q.2 = false := hall q (List.mem_cons_self _ _)
        have ht' : t ∈ rest.map Prod.fst := by
          simp only [List.map_cons, List.mem_cons] at ht
          rcases ht with h | h
          · exact absurd h.symm hq
          · exact h
        rw [hmark]
        unfold activeKeys
        rw [List.filter_cons]
        rw [hq2]
        simpa [activeKeys] using ih h' ht'

lemma deactivate_all_false (l : List (String × Bool)) :
    ∀ q ∈ l.map (fun q => (q.1, false)), (q : String × Bool).2 = false := by
  intro q hq
  rw [List.mem_map] at hq
  obtain ⟨r, _, rfl⟩ := hq
  rfl

lemma map_fst_deactivate (l : List (String × Bool)) :
    (l.map (fun q => (q.1, false))).map Prod.fst = l.map Prod.fst := by
  rw [List.map_map]
  rfl

lemma any_key_true (t : String) (l : List (String × Bool))
    (h : t ∈ l.map Prod.fst) :
    (l.map (fun q => (q.1, false))).any (fun q => q.1 == t) = true := by
  rw [List.any_eq_true]
  rw [List.mem_map] at h
  obtain ⟨q, hq, hqt⟩ := h
  exact ⟨(q.1, false), List.mem_map_of_mem _ hq, by simp [hqt]⟩

/-- What C9 asserts of a click on the modelled page: a click inside a tab
button makes, in both source variants and with the same resulting state,
exactly the clicked tab and its content panel active; a background click
changes nothing in either variant. -/
def tabClaimHolds (st : TabState) (c : TabClick) : Prop :=
  match c with
  | TabClick.onTab t _ =>
      ∃ st', operationsTabClick containerElem (clickChain c) st = some st' ∧
        switchTab (clickChain c) st = some st' ∧
        activeKeys st'.tabs = [t] ∧ activeKeys st'.contents = [t]
  | TabClick.background =>
      operationsTabClick containerElem (clickChain c) st = some st ∧
      switchTab (clickChain c) st = some st

/-- C9: for every click delivered to the operations tab container of the
modelled page, a click inside a tab button leaves exactly that tab and its
content panel active (all others inactive), identically in both source
variants despite their differing delegation targets (`.btn` versus
`.operations__tab`), and a click outside a tab button changes nothing. -/
theorem c9_tab_switching (tags : List String) (st : TabState) (c : TabClick)
    (hwt : st.tabs.map Prod.fst = tags) (hwc : st.contents.map Prod.fst = tags)
    (hc : TabClick.okFor tags c) :
    tabClaimHolds st c := by
  cases c with
  | onTab t d =>
      have hct : t ∈ tags := hc
      have hclA : closest "btn" (clickChain (TabClick.onTab t d)) =
          some (tabElem t) := by
        cases d <;> simp [clickChain, closest, tabElem, innerElem, containerElem]
      have hclB : closest "operations__tab" (clickChain (TabClick.onTab t d)) =
          some (tabElem t) := by
        cases d <;> simp [clickChain, closest, tabElem, innerElem, containerElem]
      have hne : tabElem t ≠ containerElem := by
        simp [tabElem, containerElem]
      have hmemt : t ∈ st.tabs.map Prod.fst := by rw [hwt]; exact hct
      have hmemc : t ∈ st.contents.map Prod.fst := by rw [hwc]; exact hct
      have hany : (st.contents.map (fun q => (q.1, false))).any
          (fun q => q.1 == t) = true := any_key_true t st.contents hmemc
      have hbody : switchTabBody (tabElem t) st =
          some { tabs := markFirst t (st.tabs.map (fun q => (q.1, false)))
                 contents := markFirst t (st.contents.map (fun q => (q.1, false))) } := by
        unfold switchTabBody
        rw [show (tabElem t).dataTab = some t from rfl]
        rw [show (Option.some t).getD "undefined" = t from rfl]
        rw [if_pos hany]
      refine ⟨{ tabs := markFirst t (st.tabs.map (fun q => (q.1, false)))
                contents := markFirst t (st.contents.map (fun q => (q.1, false))) },
        ?_, ?_, ?_, ?_⟩
      · unfold operationsTabClick
        rw [hclA]
        show (if tabElem t = containerElem then some st
          else switchTabBody (tabElem t) st) = _
        rw [if_neg hne]
        exact hbody
      · unfold switchTab
        rw [hclB]
        exact hbody
      · exact activeKeys_markFirst t _ (deactivate_all_false st.tabs)
          (by rw [map_fst_deactivate]; exact hmemt)
      · exact activeKeys_markFirst t _ (deactivate_all_false st.contents)
          (by rw [map_fst_deactivate]; exact hmemc)
  | background =>
      constructor
      · unfold operationsTabClick
        rw [show closest "btn" (clickChain TabClick.background) = none from by
          simp [clickChain, closest, containerElem]]
      · unfold switchTab
        rw [show closest "operations__tab" (clickChain TabClick.background) = none from by
          simp [clickChain, closest, containerElem]]

/-- The concrete tab state used to witness C9: three tabs, tab 1 active. -/
def c9State : TabState :=
  { tabs := [("1", true), ("2", false), ("3", false)]
    contents := [("1", true), ("2", false), ("3", false)] }

/-- C9 witness: clicking tab 2 of the three-tab page from the state where
tab 1 is active. -/
theorem c9_witness :
    (c9State.tabs.map Prod.fst = ["1", "2", "3"]) ∧
    (c9State.contents.map Prod.fst = ["1", "2", "3"]) ∧
    TabClick.okFor ["1", "2", "3"] (TabClick.onTab "2" false) ∧
    tabClaimHolds c9State (TabClick.onTab "2" false) :=
  ⟨by decide, by decide, by decide,
    c9_tab_switching ["1", "2", "3"] c9State (TabClick.onTab "2" false)
      (by decide) (by decide) (by decide)⟩

end Bankist
